import Mathlib

/-!
# Guardian — Risk Detection & Scan Orchestration Engine: a verification development

Shallow embedding of the risk engine (`internal/risk/engine.go`), the document
classifier (`internal/risk/classifier.go`) and the scan orchestrator
(`internal/scheduler/scheduler.go`), together with theorems about the
behaviour the specification ascribes to them.

Strings are modelled as `List Char`; Go `int` counters and scores are modelled
as `Nat` (they are only ever incremented by positive amounts); `float64`
classifier weights, which in the source are all integer multiples of `0.5`
(`1.5`, `3.0`, `5.0`, `10.0`) and hence exact in `float64`, are stored doubled
(in half-units) so that score arithmetic stays in `Nat`; the real-valued
confidence is recovered exactly through `Confidence.val : … → ℝ`.
-/

namespace Guardian

/-! ## A small regular-expression engine

Go's `regexp` package implements Perl-style leftmost-first matching (RE2).
The patterns in this repository use only: literal characters, character
classes, `?`/`*`/`+`/`{n,m}` greedy repetition over single-character classes,
alternation, and the ASCII word boundary `\b`.  The engine below implements
exactly backtracking leftmost-first semantics for this fragment: `runRx`
returns candidate match ends in backtracking preference order (greedy first,
left alternative first), and the overall match at a position is the head of
that list. -/

/-- Abstract syntax for the regex fragment used by the Guardian patterns. -/
inductive Rx where
  /-- matches the empty string -/
  | eps : Rx
  /-- a single character satisfying the predicate (a literal or a class) -/
  | ch (p : Char → Bool) : Rx
  /-- concatenation -/
  | seq (a b : Rx) : Rx
  /-- alternation, preferring the left branch (Perl semantics) -/
  | alt (a b : Rx) : Rx
  /-- greedy `*` over a single-character class -/
  | starCh (p : Char → Bool) : Rx
  /-- Go `\b`: ASCII word boundary -/
  | bound : Rx

/-- Go `\b` word characters: `[0-9A-Za-z_]`. -/
def isWordChar (c : Char) : Bool := c.isAlphanum || c = '_'

/-- Is position `i` of `s` a `\b` word boundary? -/
def atBoundary (s : List Char) (i : Nat) : Bool :=
  let before := match i with
    | 0 => false
    | j + 1 => (s.get? j).any isWordChar
  let after := (s.get? i).any isWordChar
  before != after

/-- Length of the run of characters of `l` satisfying `p` starting at its head. -/
def classRunAux (p : Char → Bool) : List Char → Nat
  | [] => 0
  | c :: rest => if p c then classRunAux p rest + 1 else 0

/-- Length of the run of characters of `s` satisfying `p` starting at position `i`. -/
def classRun (p : Char → Bool) (s : List Char) (i : Nat) : Nat :=
  classRunAux p (s.drop i)

/-- All candidate end positions for a match of `r` in `s` starting at `i`,
in backtracking preference order (first = what Perl/RE2 leftmost-first picks). -/
def runRx : Rx → List Char → Nat → List Nat
  | .eps, _, i => [i]
  | .bound, s, i => if atBoundary s i then [i] else []
  | .ch p, s, i =>
    match s.get? i with
    | some c => if p c then [i + 1] else []
    | none => []
  | .seq a b, s, i => (runRx a s i).flatMap (fun j => runRx b s j)
  | .alt a b, s, i => runRx a s i ++ runRx b s i
  | .starCh p, s, i =>
    -- greedy: longest run first, down to the empty repetition
    let k := classRun p s i
    (List.range (k + 1)).map (fun d => i + (k - d))

/-- End of the preferred match of `r` at position `i` of `s`, if any. -/
def matchEndAt (r : Rx) (s : List Char) (i : Nat) : Option Nat :=
  (runRx r s i).head?

/-- Scan positions `i, i+1, …` for the leftmost match; returns `(start, end)`. -/
def scanFrom (r : Rx) (s : List Char) : Nat → Nat → Option (Nat × Nat)
  | 0, _ => none
  | fuel + 1, i =>
    match matchEndAt r s i with
    | some e => some (i, e)
    | none => scanFrom r s fuel (i + 1)

/-- Leftmost match of `r` in `s` at or after position `i`. -/
def findFrom (r : Rx) (s : List Char) (i : Nat) : Option (Nat × Nat) :=
  scanFrom r s (s.length + 1 - i) i

/-- Go `Regexp.MatchString`. -/
def rxMatches (r : Rx) (s : List Char) : Bool :=
  (findFrom r s 0).isSome

/-- `(s.take b).drop a`: the slice `s[a:b]`. -/
def slice (s : List Char) (a b : Nat) : List Char :=
  (s.take b).drop a

/-- Successive non-overlapping leftmost matches, counted
(Go `FindAllString … -1 |>.length`).  An empty match advances one character,
as in Go; none of the Guardian patterns can match the empty string. -/
def countFromAux (r : Rx) (s : List Char) : Nat → Nat → Nat
  | 0, _ => 0
  | fuel + 1, pos =>
    match findFrom r s pos with
    | none => 0
    | some (st, en) =>
      1 + (if st < en then countFromAux r s fuel en else countFromAux r s fuel (en + 1))

/-- Number of non-overlapping leftmost matches of `r` in `s`. -/
def countMatches (r : Rx) (s : List Char) : Nat :=
  countFromAux r s (s.length + 1) 0

/-- Go `ReplaceAllString`: replace every successive non-overlapping leftmost
match with `repl` (the Guardian replacements contain no `$` expansions). -/
def replaceFromAux (r : Rx) (repl : List Char) (s : List Char) : Nat → Nat → List Char
  | 0, pos => slice s pos s.length
  | fuel + 1, pos =>
    match findFrom r s pos with
    | none => slice s pos s.length
    | some (st, en) =>
      slice s pos st ++ repl ++
        (if st < en then replaceFromAux r repl s fuel en
         else slice s en (en + 1) ++ replaceFromAux r repl s fuel (en + 1))

/-- Go `Regexp.ReplaceAllString r s repl`. -/
def replaceAll (r : Rx) (repl : List Char) (s : List Char) : List Char :=
  replaceFromAux r repl s (s.length + 1) 0

/-! ### Derived regex combinators -/

namespace Rx

/-- Concatenation of a list of regexes. -/
def cat : List Rx → Rx
  | [] => .eps
  | [r] => r
  | r :: rs => .seq r (cat rs)

/-- Alternation of a non-empty list, preferring earlier entries. -/
def alts : List Rx → Rx
  | [] => .eps
  | [r] => r
  | r :: rs => .alt r (alts rs)

/-- Greedy `?`. -/
def opt (a : Rx) : Rx := .alt a .eps

/-- Exactly `n` copies of `a`. -/
def rep (a : Rx) : Nat → Rx
  | 0 => .eps
  | n + 1 => .seq a (rep a n)

/-- Greedy `{0,n}` (longest first). -/
def upTo (a : Rx) : Nat → Rx
  | 0 => .eps
  | n + 1 => .alt (.seq a (upTo a n)) .eps

/-- Greedy `{lo,lo+extra}`. -/
def repRange (a : Rx) (lo extra : Nat) : Rx :=
  .seq (rep a lo) (upTo a extra)

/-- Greedy `+` over a single-character class. -/
def plusCh (p : Char → Bool) : Rx := .seq (.ch p) (.starCh p)

/-- A literal character. -/
def lit (c : Char) : Rx := .ch (fun x => x = c)

/-- A literal string. -/
def str (l : List Char) : Rx := cat (l.map lit)

/-- A case-insensitive literal character (for the `(?i)` classifier patterns). -/
def ciLit (c : Char) : Rx := .ch (fun x => x.toLower = c.toLower)

/-- A case-insensitive literal string. -/
def ciStr (l : List Char) : Rx := cat (l.map ciLit)

end Rx

/-! ### Character classes used by the Guardian patterns -/

/-- RE2 `\d` (ASCII). -/
def dig (c : Char) : Bool := c.isDigit

/-- RE2 `\s`: `[\t\n\f\r ]`. -/
def wsp (c : Char) : Bool :=
  c = '\t' || c = '\n' || c = Char.ofNat 12 || c = '\r' || c = ' '

/-- `[\s-]` of the credit-card pattern (also `[-\s]` of the classifier's). -/
def ccSep (c : Char) : Bool := wsp c || c = '-'

/-- `[\s.-]` of the phone pattern. -/
def phoneSep (c : Char) : Bool := wsp c || c = '.' || c = '-'

/-- `[slash or hyphen]` of the date pattern. -/
def dateSep (c : Char) : Bool := c = '/' || c = '-'

/-- `[:\s#]` of the MRN pattern (and `[\s#:]` of the classifier's patient-id). -/
def mrnSep (c : Char) : Bool := c = ':' || wsp c || c = '#'

/-- `[A-Z0-9]` of the MRN/account/license patterns. -/
def upDig (c : Char) : Bool := c.isUpper || c.isDigit

/-- `[A-Za-z0-9._%+-]`: the local part of the e-mail pattern. -/
def emailLocal (c : Char) : Bool :=
  c.isAlphanum || c = '.' || c = '_' || c = '%' || c = '+' || c = '-'

/-- `[A-Za-z0-9.-]`: the domain part of the e-mail pattern. -/
def emailDomain (c : Char) : Bool := c.isAlphanum || c = '.' || c = '-'

/-- `[A-Z|a-z]`: the TLD class of the e-mail pattern (it literally includes `|`). -/
def emailTld (c : Char) : Bool := c.isUpper || c.isLower || c = '|'

/-- `[-A-Za-z0-9+&@#/%?=~_|!:,.;]`: the URL body class. -/
def urlMid (c : Char) : Bool :=
  c.isAlphanum ||
    ['-', '+', '&', '@', '#', '/', '%', '?', '=', '~', '_', '|', '!', ':', ',', '.', ';'].contains c

/-- `[-A-Za-z0-9+&@#/%=~_|]`: the URL final-character class. -/
def urlEnd (c : Char) : Bool :=
  c.isAlphanum || ['-', '+', '&', '@', '#', '/', '%', '=', '~', '_', '|'].contains c

/-- `[A-HJ-NPR-Z0-9]`: the VIN class (upper-case letters except I, O, Q, and digits). -/
def vinCh (c : Char) : Bool :=
  (c.isUpper && !(c = 'I') && !(c = 'O') && !(c = 'Q')) || c.isDigit

/-! ### The twelve `RiskEngine` patterns (`NewRiskEngine`, engine.go) -/

open Rx in
/-- `#7` SSN: `\b\d{3}-?\d{2}-?\d{4}\b`. -/
def ssnRx : Rx :=
  cat [.bound, rep (.ch dig) 3, opt (lit '-'), rep (.ch dig) 2, opt (lit '-'),
       rep (.ch dig) 4, .bound]

open Rx in
/-- PCI-DSS credit card: `\b\d{4}[\s-]?\d{4}[\s-]?\d{4}[\s-]?\d{4}\b`. -/
def ccRx : Rx :=
  cat [.bound, rep (.ch dig) 4, opt (.ch ccSep), rep (.ch dig) 4, opt (.ch ccSep),
       rep (.ch dig) 4, opt (.ch ccSep), rep (.ch dig) 4, .bound]

open Rx in
/-- `#4, #5` phone/fax: `\b(?:\+?1[\s.-]?)?\(?\d{3}\)?[\s.-]?\d{3}[\s.-]?\d{4}\b`. -/
def phoneRx : Rx :=
  cat [.bound,
       opt (cat [opt (lit '+'), lit '1', opt (.ch phoneSep)]),
       opt (lit '('), rep (.ch dig) 3, opt (lit ')'), opt (.ch phoneSep),
       rep (.ch dig) 3, opt (.ch phoneSep), rep (.ch dig) 4, .bound]

open Rx in
/-- `#6` e-mail: `\b[A-Za-z0-9._%+-]+@[A-Za-z0-9.-]+\.[A-Z|a-z]{2,}\b`. -/
def emailRx : Rx :=
  cat [.bound, plusCh emailLocal, lit '@', plusCh emailDomain, lit '.',
       rep (.ch emailTld) 2, .starCh emailTld, .bound]

open Rx in
/-- `#8` MRN: `\b(?:MRN|M\.?R\.?N\.?)[:\s#]*[A-Z0-9]{6,12}\b|\b[A-Z]{2,3}\d{6,9}\b`. -/
def mrnRx : Rx :=
  .alt
    (cat [.bound,
          .alt (str "MRN".toList)
               (cat [lit 'M', opt (lit '.'), lit 'R', opt (lit '.'), lit 'N', opt (lit '.')]),
          .starCh mrnSep, repRange (.ch upDig) 6 6, .bound])
    (cat [.bound, repRange (.ch (·.isUpper)) 2 1, repRange (.ch dig) 6 3, .bound])

open Rx in
/-- `#2` ZIP: `\b\d{5}(?:-\d{4})?\b`. -/
def zipRx : Rx :=
  cat [.bound, rep (.ch dig) 5, opt (.seq (lit '-') (rep (.ch dig) 4)), .bound]

open Rx in
/-- The bare-date tail `\d{1,2}[slash or hyphen]\d{1,2}[slash or hyphen]\d{2,4}\b` shared by both date alternatives. -/
def dateTail : Rx :=
  cat [repRange (.ch dig) 1 1, .ch dateSep, repRange (.ch dig) 1 1, .ch dateSep,
       repRange (.ch dig) 2 2, .bound]

open Rx in
/-- `#3` dates:
`\b(?:DOB|Date of Birth|Admitted|Discharged|Born|D\.O\.B\.?)\s*:?\s*\d{1,2}[slash or hyphen]\d{1,2}[slash or hyphen]\d{2,4}\b|\b\d{1,2}[slash or hyphen]\d{1,2}[slash or hyphen]\d{2,4}\b`. -/
def dateRx : Rx :=
  .alt
    (cat [.bound,
          alts [str "DOB".toList, str "Date of Birth".toList, str "Admitted".toList,
                str "Discharged".toList, str "Born".toList,
                cat [lit 'D', lit '.', lit 'O', lit '.', lit 'B', opt (lit '.')]],
          .starCh wsp, opt (lit ':'), .starCh wsp, dateTail])
    (.seq .bound dateTail)

open Rx in
/-- `#15` IPv4: `\b(?:\d{1,3}\.){3}\d{1,3}\b`. -/
def ipRx : Rx :=
  cat [.bound, rep (.seq (repRange (.ch dig) 1 2) (lit '.')) 3, repRange (.ch dig) 1 2, .bound]

open Rx in
/-- `#14` URL: `\b(?:https?://|www\.)[-A-Za-z0-9+&@#/%?=~_|!:,.;]*[-A-Za-z0-9+&@#/%=~_|]`. -/
def urlRx : Rx :=
  cat [.bound,
       .alt (cat [str "http".toList, opt (lit 's'), str "://".toList]) (str "www.".toList),
       .starCh urlMid, .ch urlEnd]

open Rx in
/-- `#10` account numbers: `\b(?:Account|Acct|Patient)\s*#?:?\s*[A-Z0-9]{6,15}\b`. -/
def accountRx : Rx :=
  cat [.bound, alts [str "Account".toList, str "Acct".toList, str "Patient".toList],
       .starCh wsp, opt (lit '#'), opt (lit ':'), .starCh wsp,
       repRange (.ch upDig) 6 9, .bound]

open Rx in
/-- `#11` license numbers: `\b(?:DL|Driver'?s? License|License)\s*#?:?\s*[A-Z0-9]{6,15}\b`. -/
def licenseRx : Rx :=
  cat [.bound,
       alts [str "DL".toList,
             cat [str "Driver".toList, opt (lit (Char.ofNat 39)), opt (lit 's'),
                  str " License".toList],
             str "License".toList],
       .starCh wsp, opt (lit '#'), opt (lit ':'), .starCh wsp,
       repRange (.ch upDig) 6 9, .bound]

open Rx in
/-- `#12` VIN: `\b[A-HJ-NPR-Z0-9]{17}\b`. -/
def vinRx : Rx :=
  cat [.bound, rep (.ch vinCh) 17, .bound]

open Rx in
/-- ICD code: `[A-Z]\d{2}\.[A-Z0-9]{1,2}` (compiled by the engine, never consulted). -/
def icdRx : Rx :=
  cat [.ch (·.isUpper), rep (.ch dig) 2, lit '.', repRange (.ch upDig) 1 1]

/-! ### The five classifier PHI patterns (`compilePHIPatterns`, classifier.go)

All five are compiled with the `(?i)` flag. -/

open Rx in
/-- `(?i)\b\d{3}-\d{2}-\d{4}\b` (SSN, mandatory hyphens). -/
def phiSsnRx : Rx :=
  cat [.bound, rep (.ch dig) 3, lit '-', rep (.ch dig) 2, lit '-', rep (.ch dig) 4, .bound]

open Rx in
/-- `(?i)\b[A-Z]{3}\d{6}\b` (MRN-shaped token; case-insensitive, so any letter). -/
def phiMrnRx : Rx :=
  cat [.bound, rep (.ch (·.isAlpha)) 3, rep (.ch dig) 6, .bound]

open Rx in
/-- `(?i)\bDOB:?\s*\d{1,2}/\d{1,2}/\d{2,4}\b`. -/
def phiDobRx : Rx :=
  cat [.bound, ciStr "DOB".toList, opt (lit ':'), .starCh wsp,
       repRange (.ch dig) 1 1, lit '/', repRange (.ch dig) 1 1, lit '/',
       repRange (.ch dig) 2 2, .bound]

open Rx in
/-- `(?i)\b(?:patient|pt)[\s#:]+\d+\b`. -/
def phiPatientRx : Rx :=
  cat [.bound, .alt (ciStr "patient".toList) (ciStr "pt".toList),
       plusCh mrnSep, plusCh dig, .bound]

open Rx in
/-- `(?i)\b\d{4}[-\s]?\d{4}[-\s]?\d{4}[-\s]?\d{4}\b` (credit card). -/
def phiCcRx : Rx :=
  cat [.bound, rep (.ch dig) 4, opt (.ch ccSep), rep (.ch dig) 4, opt (.ch ccSep),
       rep (.ch dig) 4, opt (.ch ccSep), rep (.ch dig) 4, .bound]

/-- The classifier's PHI pattern list, in compilation order. -/
def phiPatterns : List Rx := [phiSsnRx, phiMrnRx, phiDobRx, phiPatientRx, phiCcRx]

/-! ## Redaction (`RedactContent`, engine.go) -/

/-- The redaction pipeline: pattern and placeholder, in source order
(most specific first). -/
def redactionSteps : List (Rx × String) :=
  [(ssnRx, "[REDACTED-SSN]"), (ccRx, "[REDACTED-CC]"), (phoneRx, "[REDACTED-PHONE]"),
   (emailRx, "[REDACTED-EMAIL]"), (mrnRx, "[REDACTED-MRN]"), (dateRx, "[REDACTED-DATE]"),
   (ipRx, "[REDACTED-IP]"), (urlRx, "[REDACTED-URL]"), (accountRx, "[REDACTED-ACCOUNT]"),
   (licenseRx, "[REDACTED-LICENSE]"), (vinRx, "[REDACTED-VIN]"), (zipRx, "[REDACTED-ZIP]")]

/-- `RedactContent`: replace all HIPAA PHI identifiers with placeholders,
applying the twelve patterns in the fixed source order. -/
def redactContent (text : List Char) : List Char :=
  redactionSteps.foldl (fun t step => replaceAll step.1 step.2.toList t) text

/-! ## Go string helpers used by the engine and classifier -/

/-- Split at `'\n'`, keeping every (possibly empty) component. -/
def splitOnNlAux : List Char → List Char → List (List Char)
  | [], acc => [acc.reverse]
  | c :: rest, acc =>
    if c = '\n' then acc.reverse :: splitOnNlAux rest []
    else splitOnNlAux rest (c :: acc)

/-- `bufio.dropCR`: drop a single trailing `'\r'`. -/
def dropTrailingCR (l : List Char) : List Char :=
  if l.getLast? = some '\r' then l.dropLast else l

/-- The lines produced by `bufio.Scanner` with `ScanLines`: split at `'\n'`,
drop one trailing `'\r'` per line, no empty final token after a trailing
newline, and no token at all for empty input. -/
def splitLines (text : List Char) : List (List Char) :=
  if text = [] then []
  else
    let parts := splitOnNlAux text []
    let parts := if text.getLast? = some '\n' then parts.dropLast else parts
    parts.map dropTrailingCR

/-- `unicode.IsSpace` restricted to ASCII, as used by `strings.Fields`. -/
def goIsSpace (c : Char) : Bool :=
  c = ' ' || c = '\t' || c = '\n' || c = Char.ofNat 11 || c = Char.ofNat 12 || c = '\r'

/-- `strings.Fields`: split around runs of whitespace, no empty fields. -/
def goFieldsAux : List Char → List Char → List (List Char)
  | [], acc => if acc = [] then [] else [acc.reverse]
  | c :: rest, acc =>
    if goIsSpace c then
      if acc = [] then goFieldsAux rest [] else acc.reverse :: goFieldsAux rest []
    else goFieldsAux rest (c :: acc)

/-- `strings.Fields` on a character list. -/
def goFields (s : List Char) : List (List Char) := goFieldsAux s []

/-- `strings.Trim`: remove leading and trailing characters of the cutset. -/
def goTrim (cut : List Char) (s : List Char) : List Char :=
  ((s.dropWhile cut.contains).reverse.dropWhile cut.contains).reverse

/-- `strings.Contains`. -/
def containsSub (needle : List Char) : List Char → Bool
  | [] => needle.isPrefixOf ([] : List Char)
  | c :: rest => needle.isPrefixOf (c :: rest) || containsSub needle rest

/-- `strings.ToLower` (ASCII). -/
def goToLower (s : List Char) : List Char := s.map Char.toLower

/-- `filepath.Base`: the last element of the path, with trailing slashes
removed; `"."` for the empty path, `"/"` for an all-slash path. -/
def filepathBase (p : List Char) : List Char :=
  if p = [] then ['.']
  else
    let r := p.reverse.dropWhile (· = '/')
    if r = [] then ['/'] else (r.takeWhile (· ≠ '/')).reverse

/-! ## Document classifier (`Classify`, classifier.go)

All classifier weights in the source are `float64` multiples of `0.5`
(`1.5`, `3.0`, `5.0`, `10.0`), so sums of them are exact in `float64`.  We
store every weight and score **doubled** (`weight2 = 2 × weight`) so that the
score arithmetic stays in `Nat`; every comparison the source makes is
reproduced on the doubled values (`medScore > finScore ↔ med2 > fin2`,
`score > 10 ↔ score2 > 20`, …). -/

/-- Category of a document (`ClassifierType`). -/
inductive ClassifierType where
  | Medical
  | Financial
  | Generic
deriving DecidableEq, BEq

/-- `train()`: high-weight medical keywords (weight 3.0). -/
def medicalHigh : List String :=
  ["patient", "diagnosis", "prescription", "physician", "hospital",
   "surgical", "pathology", "radiology", "oncology", "cardiology",
   "hipaa", "phi", "mrn", "medication", "procedure"]

/-- `train()`: medium-weight medical keywords (weight 1.5). -/
def medicalMed : List String :=
  ["medical", "clinic", "treatment", "symptoms", "doctor", "nurse",
   "surgery", "anesthesia", "pediatric", "admitted", "discharged",
   "history", "rx", "insurance", "policy", "claim"]

/-- `train()`: high-weight financial keywords (weight 3.0). -/
def financialHigh : List String :=
  ["invoice", "payment", "transaction", "ledger", "revenue",
   "debit", "credit", "fiscal", "payroll", "receivable"]

/-- `train()`: medium-weight financial keywords (weight 1.5). -/
def financialMed : List String :=
  ["bill", "amount", "due", "balance", "account", "bank",
   "statement", "audit", "tax", "profit", "loss", "quarter",
   "salary", "expense"]

/-- `train()`: medical bigrams (weight 5.0). -/
def medicalBigrams : List String :=
  ["medical record", "patient history", "health information",
   "protected health", "medical history", "clinical notes",
   "prescription drug", "patient name", "date birth",
   "social security", "insurance number", "medical condition"]

/-- `train()`: financial bigrams (weight 5.0). -/
def financialBigrams : List String :=
  ["bank account", "credit card", "account number",
   "payment method", "billing address", "purchase order",
   "financial statement", "tax id", "routing number"]

/-- The `MedicalWords` map, with doubled weights (3.0 → 6, 1.5 → 3). -/
def medicalWords : List (String × Nat) :=
  medicalHigh.map (fun w => (w, 6)) ++ medicalMed.map (fun w => (w, 3))

/-- The `FinancialWords` map, with doubled weights. -/
def financialWords : List (String × Nat) :=
  financialHigh.map (fun w => (w, 6)) ++ financialMed.map (fun w => (w, 3))

/-- The `MedicalBigrams` map, with doubled weights (5.0 → 10). -/
def medicalBigramTbl : List (String × Nat) :=
  medicalBigrams.map (fun w => (w, 10))

/-- The `FinancialBigrams` map, with doubled weights. -/
def financialBigramTbl : List (String × Nat) :=
  financialBigrams.map (fun w => (w, 10))

/-- Go map lookup: the stored weight, or 0 when absent. -/
def lookupW (tbl : List (String × Nat)) (k : String) : Nat :=
  match tbl.find? (fun p => p.1 == k) with
  | some p => p.2
  | none => 0

/-- The characters the `strings.NewReplacer` of `Classify` turns into spaces. -/
def replacerChars : List Char := [',', '\t', '\n', '\r', '.', ';', ':']

/-- Step 1 of `Classify`: lowercase, replace separators with spaces, split
into whitespace-delimited tokens. -/
def normalizeTokens (text : List Char) : List String :=
  let replaced := (goToLower text).map (fun c => if replacerChars.contains c then ' ' else c)
  (goFields replaced).map String.mk

/-- The cutset of `strings.Trim(token, "!?()[]\x7b\x7d'\"")` applied to each
token before the unigram lookup. -/
def trimCutset : List Char :=
  ['!', '?', '(', ')', '[', ']', Char.ofNat 123, Char.ofNat 125, Char.ofNat 39, Char.ofNat 34]

/-- Step 2 of `Classify`: summed unigram weights of the trimmed tokens. -/
def uniScore (tbl : List (String × Nat)) (tokens : List String) : Nat :=
  (tokens.map (fun t => lookupW tbl (String.mk (goTrim trimCutset t.toList)))).sum

/-- Adjacent-token bigrams (of the untrimmed tokens, as in the source). -/
def bigramsOf (tokens : List String) : List String :=
  (tokens.zip tokens.tail).map (fun p => p.1 ++ " " ++ p.2)

/-- Step 3 of `Classify`: summed bigram weights. -/
def bgScore (tbl : List (String × Nat)) (tokens : List String) : Nat :=
  ((bigramsOf tokens).map (lookupW tbl)).sum

/-- Step 4 of `Classify`: how many of the five PHI patterns match the raw text. -/
def phiMatchCount (text : List Char) : Nat :=
  (phiPatterns.filter (fun r => rxMatches r text)).length

/-- Twice the Go `medScore` at the comparison point of `Classify`
(unigrams + bigrams + 10.0 per matching PHI pattern). -/
def medScore2 (text : List Char) : Nat :=
  let tokens := normalizeTokens text
  uniScore medicalWords tokens + bgScore medicalBigramTbl tokens + phiMatchCount text * 20

/-- Twice the Go `finScore` at the comparison point of `Classify`. -/
def finScore2 (text : List Char) : Nat :=
  let tokens := normalizeTokens text
  uniScore financialWords tokens + bgScore financialBigramTbl tokens

/-- The Go `medScore` as an exact rational. -/
def medScoreQ (text : List Char) : ℚ := (medScore2 text : ℚ) / 2

/-- The Go `finScore` as an exact rational. -/
def finScoreQ (text : List Char) : ℚ := (finScore2 text : ℚ) / 2

/-- The confidence value `Classify` returns, kept in symbolic form: which
branch computed it, from which (doubled) scores.  `Confidence.val` recovers
the real number. -/
inductive Confidence where
  /-- the zero confidence of the `Generic` early returns -/
  | generic
  /-- `(win/total)*100`, when the winning score is ≤ 10 (`win2 ≤ 20`) -/
  | linear (win2 total2 : Nat)
  /-- `90 + 10*log10(win/10)` (clamped at 100), when the winning score is > 10 -/
  | logOverride (win2 : Nat)
deriving DecidableEq

/-- The real number a `Confidence` stands for, including the final
`if confidence > 100 { confidence = 100 }` clamp of the source. -/
noncomputable def Confidence.val : Confidence → ℝ
  | .generic => 0
  | .linear win2 total2 =>
    let c : ℝ := (win2 : ℝ) / 2 / ((total2 : ℝ) / 2) * 100
    if 100 < c then 100 else c
  | .logOverride win2 =>
    let c : ℝ := 90 + 10 * Real.logb 10 ((win2 : ℝ) / 2 / 10)
    if 100 < c then 100 else c

/-- Decidable form of the float comparison `confidence > q`, valid for the
thresholds `q < 90` that the engine uses (60 and 80): a `logOverride`
confidence always lies in `[90, 100]`.  Justified by `classify_exceeds_iff`. -/
def Confidence.exceeds : Confidence → Nat → Bool
  | .generic, _ => false
  | .linear win2 total2, q => decide (q * total2 < 100 * win2)
  | .logOverride _, _ => true

/-- `Classify`: category and confidence of a text. -/
def classify (text : List Char) : ClassifierType × Confidence :=
  let tokens := normalizeTokens text
  if tokens = [] then (.Generic, .generic)
  else
    let med2 := medScore2 text
    let fin2 := finScore2 text
    if med2 + fin2 = 0 then (.Generic, .generic)
    else if fin2 < med2 then
      (.Medical, if 20 < med2 then .logOverride med2 else .linear med2 (med2 + fin2))
    else
      (.Financial, if 20 < fin2 then .logOverride fin2 else .linear fin2 (med2 + fin2))

/-! ## Risk engine (`AnalyzeFileRisk`, engine.go)

`AnalyzeFileRisk` extracts text through the external `content.ExtractText`
collaborator and then analyses it; the embedding takes the extracted text as
an argument, so it models exactly the analyses whose extraction succeeded. -/

/-- Per-line match counts of the twelve engine patterns. -/
structure LineCounts where
  ssn : Nat
  cc : Nat
  phone : Nat
  email : Nat
  mrn : Nat
  date : Nat
  ip : Nat
  url : Nat
  account : Nat
  license : Nat
  vin : Nat
  zip : Nat
deriving DecidableEq

/-- All-zero counts. -/
def LineCounts.zero : LineCounts := ⟨0, 0, 0, 0, 0, 0, 0, 0, 0, 0, 0, 0⟩

/-- `FindAllString` counts of every pattern on one line. -/
def countsOfLine (l : List Char) : LineCounts where
  ssn := countMatches ssnRx l
  cc := countMatches ccRx l
  phone := countMatches phoneRx l
  email := countMatches emailRx l
  mrn := countMatches mrnRx l
  date := countMatches dateRx l
  ip := countMatches ipRx l
  url := countMatches urlRx l
  account := countMatches accountRx l
  license := countMatches licenseRx l
  vin := countMatches vinRx l
  zip := countMatches zipRx l

/-- The additions one line makes to `profile.RiskScore` inside the scan loop
(SSNs are counted separately and do **not** contribute here). -/
def LineCounts.score (c : LineCounts) : Nat :=
  c.cc * 10 + c.phone * 5 + c.email * 5 + c.mrn * 15 + c.date * 10 + c.ip * 3 +
    c.url * 5 + c.account * 10 + c.license * 8 + c.vin * 8 + c.zip * 3

/-- The soft-risk keyword list of `AnalyzeFileRisk`. -/
def sensitiveKeywords : List String :=
  ["hiv", "cancer", "psychotherapy", "suicide", "minor", "diagnosis", "patient"]

/-- Does a line contain one of the sensitive keywords (case-insensitively)? -/
def lineHasKeyword (l : List Char) : Bool :=
  sensitiveKeywords.any (fun kw => containsSub kw.toList (goToLower l))

/-- `profile.SSNCount` after the scan loop. -/
def ssnCountOf (text : List Char) : Nat :=
  ((splitLines text).map (fun l => (countsOfLine l).ssn)).sum

/-- `profile.RiskScore` after the scan loop: the per-line category weights. -/
def riskAccumOf (text : List Char) : Nat :=
  ((splitLines text).map (fun l => (countsOfLine l).score)).sum

/-- `profile.HasDiagnosis` after the scan loop. -/
def hasDiagnosisOf (text : List Char) : Bool :=
  (splitLines text).any lineHasKeyword

/-- The AI-boost condition:
`category == TypeMedical && confidence > 80 && profile.SSNCount > 0`. -/
def aiBoostFires (text : List Char) : Bool :=
  (classify text).1 == ClassifierType.Medical && (classify text).2.exceeds 80 &&
    decide (0 < ssnCountOf text)

/-- The filename-context penalty condition: base name contains `marketing` or
`public` (case-insensitively) and at least one SSN was found. -/
def namePenaltyFires (path text : List Char) : Bool :=
  (containsSub "marketing".toList (goToLower (filepathBase path)) ||
      containsSub "public".toList (goToLower (filepathBase path))) &&
    decide (0 < ssnCountOf text)

/-- The local variable `score` of `AnalyzeFileRisk` as it stands at the final
labelling: `SSNCount*10`, plus 50 for keywords, plus the 300 AI boost, plus
the 200 filename penalty.  Note that `riskAccumOf` does **not** appear. -/
def preClampScore (path text : List Char) : Nat :=
  ssnCountOf text * 10 + (if hasDiagnosisOf text then 50 else 0) +
    (if aiBoostFires text then 300 else 0) +
    (if namePenaltyFires path text then 200 else 0)

/-- One finding string of `profile.Findings`, abstracted to a tag carrying the
data interpolated into the `fmt.Sprintf` message. -/
inductive Finding where
  /-- `AI Analysis: …% likelihood of being … Document` -/
  | aiAnalysis (category : ClassifierType)
  /-- `Line %d: %d SSN(s) found` -/
  | ssnFound (line count : Nat)
  /-- `Line %d: Credit Card found` -/
  | creditCard (line : Nat)
  /-- `Line %d: %d Phone/Fax number(s) found` -/
  | phoneFound (line count : Nat)
  /-- `Line %d: %d Email(s) found` -/
  | emailFound (line count : Nat)
  /-- `Line %d: Medical Record Number found` -/
  | mrnFound (line : Nat)
  /-- `Line %d: %d Date(s) found (DOB/Admission/Discharge)` -/
  | dateFound (line count : Nat)
  /-- `Line %d: IP Address found` -/
  | ipFound (line : Nat)
  /-- `Line %d: URL found` -/
  | urlFound (line : Nat)
  /-- `Line %d: Account Number found` -/
  | accountFound (line : Nat)
  /-- `Line %d: License/ID Number found` -/
  | licenseFound (line : Nat)
  /-- `Line %d: Vehicle ID found` -/
  | vehicleId (line : Nat)
  /-- `Line %d: ZIP Code found` -/
  | zipFound (line : Nat)
  /-- `Contains Sensitive Medical Keywords` -/
  | sensitiveKeywordsFound
  /-- `CRITICAL: AI confirmed Medical Record with SSN Exposure` -/
  | criticalMedicalSSN
  /-- `CRITICAL: Sensitive data in Marketing/Public file` -/
  | criticalMarketing
deriving DecidableEq

/-- The findings appended for one line of the scan loop, in source order. -/
def lineFindings (n : Nat) (c : LineCounts) : List Finding :=
  (if 0 < c.ssn then [Finding.ssnFound n c.ssn] else []) ++
  (if 0 < c.cc then [Finding.creditCard n] else []) ++
  (if 0 < c.phone then [Finding.phoneFound n c.phone] else []) ++
  (if 0 < c.email then [Finding.emailFound n c.email] else []) ++
  (if 0 < c.mrn then [Finding.mrnFound n] else []) ++
  (if 0 < c.date then [Finding.dateFound n c.date] else []) ++
  (if 0 < c.ip then [Finding.ipFound n] else []) ++
  (if 0 < c.url then [Finding.urlFound n] else []) ++
  (if 0 < c.account then [Finding.accountFound n] else []) ++
  (if 0 < c.license then [Finding.licenseFound n] else []) ++
  (if 0 < c.vin then [Finding.vehicleId n] else []) ++
  (if 0 < c.zip then [Finding.zipFound n] else [])

/-- One file's result (`RiskProfile`). -/
structure RiskProfile where
  filePath : String
  riskScore : Nat
  ssnCount : Nat
  hasDiagnosis : Bool
  riskLabel : String
  estimatedFine : Nat
  findings : List Finding
deriving DecidableEq

/-- `AnalyzeFileRisk` on a file at `path` whose extracted text is `text`.

The final labelling of the source **overwrites** `profile.RiskScore` with the
local `score` in the three positive bands, and leaves the accumulated
per-line value untouched in the `Safe` band. -/
def analyzeFileRisk (path text : List Char) : RiskProfile :=
  let cat := (classify text).1
  let conf := (classify text).2
  let aiF := if conf.exceeds 60 && cat != ClassifierType.Generic
    then [Finding.aiAnalysis cat] else []
  let perLineF := ((splitLines text).enum).flatMap
    (fun p => lineFindings (p.1 + 1) (countsOfLine p.2))
  let diagF := if hasDiagnosisOf text then [Finding.sensitiveKeywordsFound] else []
  let boostF := if aiBoostFires text then [Finding.criticalMedicalSSN] else []
  let nameF := if namePenaltyFires path text then [Finding.criticalMarketing] else []
  let score := preClampScore path text
  let stored : Nat × String :=
    if 100 < score then (100, "CRITICAL")
    else if 50 ≤ score then (score, "High")
    else if 0 < score then (score, "Low")
    else (riskAccumOf text, "Safe")
  { filePath := String.mk path
    riskScore := stored.1
    ssnCount := ssnCountOf text
    hasDiagnosis := hasDiagnosisOf text
    riskLabel := stored.2
    estimatedFine := ssnCountOf text * 100 + stored.1 * 50
    findings := aiF ++ perLineF ++ diagF ++ boostF ++ nameF }

/-! ## Scan orchestrator (scheduler.go)

The orchestrator's effects are modelled as a sequential trace.  Cancellation
is cooperative: the code polls `ctx.Done()` at a fixed set of program points;
we number these polls `0, 1, 2, …` in execution order and represent the
context by the function `cancelled : Nat → Bool` giving each poll's answer
(a context that is cancelled from the start answers `true` everywhere). -/

/-- State of a Go channel used purely as a closable stop signal. -/
inductive ChanState where
  | opened
  | closed
deriving DecidableEq

/-- Go `close(ch)`: panics when the channel is already closed. -/
def closeChan : ChanState → Except String ChanState
  | .opened => .ok .closed
  | .closed => .error "close of closed channel"

/-- The scheduler state touched by `Stop`: the ticker, the `stop` channel and
the stored cancellation handle (`cancelCurrentScan`, guarded by `mu`). -/
structure SchedulerState where
  tickerActive : Bool
  stop : ChanState
  cancelHandle : Bool
deriving DecidableEq

/-- A freshly constructed and started scheduler: `stop` channel open. -/
def newSchedulerState : SchedulerState :=
  { tickerActive := true, stop := .opened, cancelHandle := false }

/-- `CancelScan`: invoke and clear the stored handle; a no-op when idle. -/
def cancelScan (s : SchedulerState) : SchedulerState :=
  { s with cancelHandle := false }

/-- `Stop`: stop the ticker (`time.Ticker.Stop` is safe to repeat), cancel any
running scan, then `close(s.stop)` — unconditionally, with no `sync.Once` or
closed-check guarding it. -/
def schedulerStop (s : SchedulerState) : Except String SchedulerState :=
  let s1 := { s with tickerActive := false }
  let s2 := cancelScan s1
  (closeChan s2.stop).map (fun c => { s2 with stop := c })

/-- The manual-trigger channel `make(chan bool, 1)`, modelled by its buffer. -/
structure TriggerChan where
  buf : List Bool
deriving DecidableEq

/-- The trigger channel as `NewScheduler` creates it: empty. -/
def TriggerChan.empty : TriggerChan := ⟨[]⟩

/-- `RunNow`: the non-blocking send
`select { case s.trigger <- true: default: }` — when the capacity-1 buffer is
full, the request is dropped and the caller never blocks. -/
def runNow (t : TriggerChan) : TriggerChan :=
  if t.buf.length < 1 then ⟨t.buf ++ [true]⟩ else t

/-- How many scans the run loop will execute once it drains the buffered
triggers: one `executeScan` per buffered value. -/
def pendingScans (t : TriggerChan) : Nat := t.buf.length

/-- `filepath.Ext`: the suffix beginning at the final dot of the final path
element (empty when there is none). -/
def extOf (p : List Char) : List Char :=
  let relem := p.reverse.takeWhile (· ≠ '/')
  let rext := relem.takeWhile (· ≠ '.')
  if rext.length = relem.length then [] else '.' :: rext.reverse

/-- The supported extensions, shared by `executeScan` and `AnalyzeDirectory`. -/
def scannableExts : List String :=
  [".txt", ".csv", ".log", ".md", ".json", ".xml", ".html", ".pdf", ".doc", ".docx",
   ".xls", ".xlsx", ".rtf", ".jpg", ".jpeg", ".png", ".gif", ".bmp", ".tiff", ".tif"]

/-- Is a path scannable? (`isScannable(strings.ToLower(filepath.Ext(p)))`.) -/
def isScannable (p : List Char) : Bool :=
  scannableExts.contains (String.mk (goToLower (extOf p)))

/-- One entry visited by a directory walk: its path, whether it is a
directory, and — for files — the text `content.ExtractText` yields for it
(`none` for an extraction error). -/
structure WalkEntry where
  path : String
  isDir : Bool
  text : Option String

/-- The externally visible effects of `executeScan`, in order. -/
inductive ScanEvent where
  /-- `log:info` — "Starting scan of N directories…" -/
  | logInfo (dirs : Nat)
  /-- `scan:scheduled:error` carrying "Scan cancelled by user" -/
  | scanCancelled
  /-- `scan:scheduled:start` carrying the total file count -/
  | scanStart (total : Nat)
  /-- `scan:scheduled:progress` for one scanned file -/
  | progress (file : String)
  /-- the certificate request made for a passing scan with files -/
  | certRequested
  /-- `store.AddAuditEntry` of an entry with the given status -/
  | auditRecorded (status : String)
  /-- `scan:scheduled:complete` -/
  | scanComplete (status : String)
deriving DecidableEq

/-- Result of one modelled directory walk. -/
structure WalkOut where
  files : Nat
  risk : Nat
  events : List ScanEvent
  nextCheck : Nat
  aborted : Bool

/-- The counting `WalkDir` of phase 1: a cancellation poll per entry, counting
non-directory entries with a supported extension.  Returns
`(count, next poll index, aborted?)`. -/
def countWalk (cancelled : Nat → Bool) : List WalkEntry → Nat → Nat × Nat × Bool
  | [], k => (0, k, false)
  | e :: rest, k =>
    if cancelled k then (0, k + 1, true)
    else
      let n := if !e.isDir && isScannable e.path.toList then 1 else 0
      let r := countWalk cancelled rest (k + 1)
      (n + r.1, r.2.1, r.2.2)

/-- Phase 1 of `executeScan` over all roots: the pre-root `select` poll, the
counting walk, and the post-walk `ctx.Err()` observation. -/
def phase1 (cancelled : Nat → Bool) : List (List WalkEntry) → Nat → Nat × Nat × Bool
  | [], k => (0, k, false)
  | root :: rest, k =>
    if cancelled k then (0, k + 1, true)
    else
      let w := countWalk cancelled root (k + 1)
      if w.2.2 then (0, w.2.1, true)
      else if cancelled w.2.1 then (0, w.2.1 + 1, true)
      else
        let r := phase1 cancelled rest (w.2.1 + 1)
        (w.1 + r.1, r.2.1, r.2.2)

/-- The walk of `AnalyzeDirectory` during phase 2: a cancellation poll per
entry; for each supported file, the progress callback fires, the file counts
toward `TotalFiles`, and `AnalyzeFileRisk` contributes its (clamped) score.
A file whose extraction fails contributes a zero profile. -/
def analyzeWalk (cancelled : Nat → Bool) : List WalkEntry → Nat → WalkOut
  | [], k => { files := 0, risk := 0, events := [], nextCheck := k, aborted := false }
  | e :: rest, k =>
    if cancelled k then
      { files := 0, risk := 0, events := [], nextCheck := k + 1, aborted := true }
    else if e.isDir || !isScannable e.path.toList then
      analyzeWalk cancelled rest (k + 1)
    else
      let score := match e.text with
        | some t => (analyzeFileRisk e.path.toList t.toList).riskScore
        | none => 0
      let r := analyzeWalk cancelled rest (k + 1)
      { files := 1 + r.files, risk := score + r.risk,
        events := .progress e.path :: r.events, nextCheck := r.nextCheck,
        aborted := r.aborted }

/-- Phase 2 of `executeScan`: `AnalyzeDirectory` on each root; cancellation
anywhere aborts the whole scan. -/
def phase2 (cancelled : Nat → Bool) : List (List WalkEntry) → Nat → WalkOut
  | [], k => { files := 0, risk := 0, events := [], nextCheck := k, aborted := false }
  | root :: rest, k =>
    let w := analyzeWalk cancelled root k
    if w.aborted then w
    else
      let r := phase2 cancelled rest w.nextCheck
      { files := w.files + r.files, risk := w.risk + r.risk,
        events := w.events ++ r.events, nextCheck := r.nextCheck, aborted := r.aborted }

/-- `executeScan` over the configured roots (each root paired with the entries
its walk visits), as the trace of its effects. -/
def executeScan (roots : List (String × List WalkEntry)) (cancelled : Nat → Bool) :
    List ScanEvent :=
  if roots.length = 0 then []
  else
    let p1 := phase1 cancelled (roots.map (·.2)) 0
    if p1.2.2 then [.logInfo roots.length, .scanCancelled]
    else
      let p2 := phase2 cancelled (roots.map (·.2)) p1.2.1
      if p2.aborted then
        [ScanEvent.logInfo roots.length, .scanStart p1.1] ++ p2.events ++ [.scanCancelled]
      else
        let status := if 0 < p2.risk then "FAILED" else "PASSED"
        let cert := if p2.risk = 0 && 0 < p2.files then [ScanEvent.certRequested] else []
        [ScanEvent.logInfo roots.length, .scanStart p1.1] ++ p2.events ++ cert ++
          [.auditRecorded status, .scanComplete status]

/-! ## Theorems -/

/-- The stored `riskScore` in terms of the pre-clamp score: the three positive
bands store the (possibly clamped) pre-clamp score, the `Safe` band keeps the
per-line accumulation. -/
theorem analyzeFileRisk_riskScore (path text : List Char) :
    (analyzeFileRisk path text).riskScore =
      (if 100 < preClampScore path text then 100
       else if 50 ≤ preClampScore path text then preClampScore path text
       else if 0 < preClampScore path text then preClampScore path text
       else riskAccumOf text) := by
  simp only [analyzeFileRisk]
  split_ifs <;> rfl

/-- The stored `riskLabel` in terms of the pre-clamp score. -/
theorem analyzeFileRisk_riskLabel (path text : List Char) :
    (analyzeFileRisk path text).riskLabel =
      (if 100 < preClampScore path text then "CRITICAL"
       else if 50 ≤ preClampScore path text then "High"
       else if 0 < preClampScore path text then "Low"
       else "Safe") := by
  simp only [analyzeFileRisk]
  split_ifs <;> rfl

/-- The stored `ssnCount` is the per-line SSN total. -/
theorem analyzeFileRisk_ssnCount (path text : List Char) :
    (analyzeFileRisk path text).ssnCount = ssnCountOf text := by
  simp [analyzeFileRisk]

/-- The stored `estimatedFine` in terms of the stored `riskScore`. -/
theorem analyzeFileRisk_fine (path text : List Char) :
    (analyzeFileRisk path text).estimatedFine =
      ssnCountOf text * 100 + (analyzeFileRisk path text).riskScore * 50 := by
  simp [analyzeFileRisk]

/-- C1 (amended): the risk labelling is exhaustive and monotonic in the
pre-clamp score `S` exactly as claimed (`Safe` at `S = 0`, `Low` on
`0 < S < 50`, `High` on `50 ≤ S ≤ 100`, `CRITICAL` at `S > 100`), and for
`S > 0` the stored `riskScore` equals `min(S,100)`; but at `S = 0` the stored
`riskScore` is the per-line pattern accumulation, which the final banding
never overwrites, rather than `min(S,100) = 0`. -/
theorem risk_banding (path text : List Char) :
    ((analyzeFileRisk path text).riskLabel = "Safe" ↔ preClampScore path text = 0) ∧
    ((analyzeFileRisk path text).riskLabel = "Low" ↔
      0 < preClampScore path text ∧ preClampScore path text < 50) ∧
    ((analyzeFileRisk path text).riskLabel = "High" ↔
      50 ≤ preClampScore path text ∧ preClampScore path text ≤ 100) ∧
    ((analyzeFileRisk path text).riskLabel = "CRITICAL" ↔
      100 < preClampScore path text) ∧
    (0 < preClampScore path text →
      (analyzeFileRisk path text).riskScore = min (preClampScore path text) 100) ∧
    (preClampScore path text = 0 →
      (analyzeFileRisk path text).riskScore = riskAccumOf text) := by
  rw [analyzeFileRisk_riskScore, analyzeFileRisk_riskLabel]
  split_ifs with h1 h2 h3 <;>
    refine ⟨?_, ?_, ?_, ?_, ?_, ?_⟩ <;>
    first
      | omega
      | (simp; omega)

/-- C1 witness: `cancer` alone gives pre-clamp score 50 (the keyword bonus),
label `High`, and stored score `min 50 100 = 50`. -/
theorem risk_banding_witness :
    preClampScore "f.txt".toList "cancer".toList = 50 ∧
      (analyzeFileRisk "f.txt".toList "cancer".toList).riskLabel = "High" ∧
      (analyzeFileRisk "f.txt".toList "cancer".toList).riskScore =
        min (preClampScore "f.txt".toList "cancer".toList) 100 :=
  ⟨by decide,
   (risk_banding "f.txt".toList "cancer".toList).2.2.1.mpr ⟨by decide, by decide⟩,
   (risk_banding "f.txt".toList "cancer".toList).2.2.2.2.1 (by decide)⟩

/-- C2 (amended): whenever the classifier reports Medical with confidence
above 80 and at least one SSN was found, 300 is added to the final score and
a CRITICAL finding is appended; but the final score consists **only** of
`ssnCount*10`, the keyword bonus, the boost and the filename penalty — the
per-line category weights accumulated into `riskScore` earlier are replaced
(discarded) by it, not added to it. -/
theorem ai_boost_scoring (path text : List Char)
    (hcat : (classify text).1 = ClassifierType.Medical)
    (hconf : (classify text).2.exceeds 80 = true)
    (hssn : 0 < ssnCountOf text) :
    preClampScore path text =
      ssnCountOf text * 10 + (if hasDiagnosisOf text then 50 else 0) + 300 +
        (if namePenaltyFires path text then 200 else 0) ∧
    Finding.criticalMedicalSSN ∈ (analyzeFileRisk path text).findings := by
  have hb : aiBoostFires text = true := by
    simp [aiBoostFires, hcat, hconf, hssn]
    rfl
  constructor
  · simp [preClampScore, hb]
  · simp [analyzeFileRisk, hb]

/-- C2 witness: the boost conditions hold for
`4111-1111-1111-1111 123-45-6789`, the final score is `1*10 + 300`, and the
CRITICAL finding is present. -/
theorem ai_boost_scoring_witness :
    preClampScore "f.txt".toList "4111-1111-1111-1111 123-45-6789".toList =
        ssnCountOf "4111-1111-1111-1111 123-45-6789".toList * 10 +
          (if hasDiagnosisOf "4111-1111-1111-1111 123-45-6789".toList then 50 else 0) +
          300 +
          (if namePenaltyFires "f.txt".toList
              "4111-1111-1111-1111 123-45-6789".toList then 200 else 0) ∧
      Finding.criticalMedicalSSN ∈
        (analyzeFileRisk "f.txt".toList
          "4111-1111-1111-1111 123-45-6789".toList).findings :=
  ai_boost_scoring "f.txt".toList "4111-1111-1111-1111 123-45-6789".toList
    (by decide) (by decide) (by decide)

/-- C3: for every successfully analyzed file, the finalized profile satisfies
`estimatedFine == ssnCount*100 + riskScore*50`, where `riskScore` is the
stored post-clamp value. -/
theorem estimatedFine_equation (path text : List Char) :
    (analyzeFileRisk path text).estimatedFine =
      (analyzeFileRisk path text).ssnCount * 100 +
        (analyzeFileRisk path text).riskScore * 50 := by
  rw [analyzeFileRisk_fine, analyzeFileRisk_ssnCount]

/-- C4: a text in which no line matches any detection pattern and no line
contains a sensitive keyword produces a profile with score 0, label `Safe`
and fine 0. -/
theorem zero_matches_safe (path text : List Char)
    (hc : ∀ l ∈ splitLines text, countsOfLine l = LineCounts.zero)
    (hk : ∀ l ∈ splitLines text, lineHasKeyword l = false) :
    (analyzeFileRisk path text).riskScore = 0 ∧
      (analyzeFileRisk path text).riskLabel = "Safe" ∧
      (analyzeFileRisk path text).estimatedFine = 0 := by
  have hssn : ssnCountOf text = 0 := by
    apply List.sum_eq_zero
    intro x hx
    simp only [List.mem_map] at hx
    obtain ⟨l, hl, rfl⟩ := hx
    rw [hc l hl]
    rfl
  have haccum : riskAccumOf text = 0 := by
    apply List.sum_eq_zero
    intro x hx
    simp only [List.mem_map] at hx
    obtain ⟨l, hl, rfl⟩ := hx
    rw [hc l hl]
    rfl
  have hdiag : hasDiagnosisOf text = false := by
    simp only [hasDiagnosisOf, List.any_eq_false]
    intro l hl
    simp [hk l hl]
  have hS : preClampScore path text = 0 := by
    simp [preClampScore, hssn, hdiag, aiBoostFires, namePenaltyFires]
  have hrs : (analyzeFileRisk path text).riskScore = 0 := by
    rw [analyzeFileRisk_riskScore, hS, haccum]
    rfl
  refine ⟨hrs, ?_, ?_⟩
  · rw [analyzeFileRisk_riskLabel, hS]
    rfl
  · rw [analyzeFileRisk_fine, hssn, hrs]

/-- C4 witness: `hello world` matches nothing and is `Safe` with zero score
and fine. -/
theorem zero_matches_safe_witness :
    (analyzeFileRisk "f.txt".toList "hello world".toList).riskScore = 0 ∧
      (analyzeFileRisk "f.txt".toList "hello world".toList).riskLabel = "Safe" ∧
      (analyzeFileRisk "f.txt".toList "hello world".toList).estimatedFine = 0 :=
  zero_matches_safe "f.txt".toList "hello world".toList (by decide) (by decide)

/-- C7: the claim demands that a second `Stop` must not panic, but `Stop`
closes the shared `stop` channel unconditionally, so the second call panics
with Go's "close of closed channel". -/
theorem stop_twice_panics :
    (schedulerStop newSchedulerState).bind schedulerStop =
      Except.error "close of closed channel" := by
  rfl

/-- C9: the manual trigger is a single non-blocking slot: a `RunNow` while a
trigger is pending leaves the state unchanged, the buffer never exceeds one
pending trigger, and two rapid `RunNow` calls from an idle scheduler leave
exactly one pending trigger — hence exactly one scan execution. -/
theorem trigger_single_slot (t : TriggerChan) (h : pendingScans t ≤ 1) :
    pendingScans (runNow t) ≤ 1 ∧
      (pendingScans t = 0 →
        runNow (runNow t) = runNow t ∧ pendingScans (runNow (runNow t)) = 1) := by
  rcases t with ⟨buf⟩
  rcases buf with _ | ⟨b, rest⟩
  · simp [pendingScans, runNow]
  · rcases rest with _ | ⟨b2, rest2⟩
    · simp [pendingScans, runNow]
    · simp [pendingScans] at h

/-- C9 witness: two rapid `RunNow` calls on the freshly created trigger
channel buffer exactly one trigger. -/
theorem trigger_single_slot_witness :
    pendingScans TriggerChan.empty = 0 ∧
      runNow (runNow TriggerChan.empty) = runNow TriggerChan.empty ∧
      pendingScans (runNow (runNow TriggerChan.empty)) = 1 :=
  ⟨by decide, (trigger_single_slot TriggerChan.empty (by decide)).2 (by decide)⟩

/-- C1 counterexample: the file `f.txt` containing exactly `www.example` has
pre-clamp score `S = 0` (nothing feeds the final `score` variable), yet the
stored `riskScore` is the per-line URL weight 5, not `min(S,100) = 0`: the
`Safe` branch of the final banding leaves the accumulated per-line weights in
`riskScore`. -/
theorem banding_stored_score_cx :
    preClampScore "f.txt".toList "www.example".toList = 0 ∧
      (analyzeFileRisk "f.txt".toList "www.example".toList).riskLabel = "Safe" ∧
      (analyzeFileRisk "f.txt".toList "www.example".toList).riskScore = 5 ∧
      (analyzeFileRisk "f.txt".toList "www.example".toList).riskScore ≠
        min (preClampScore "f.txt".toList "www.example".toList) 100 := by
  decide

/-- C2 counterexample: for `4111-1111-1111-1111 123-45-6789` (one credit
card, one SSN, classified Medical with confidence above 80) the AI boost
fires, but the final score is `ssnCount*10 + 300 = 310`: the per-line weights
accumulated into `riskScore` (here 10 for the credit card) are **not** added
— the two scoring passes replace rather than add. -/
theorem ai_boost_not_additive_cx :
    (classify "4111-1111-1111-1111 123-45-6789".toList).1 = ClassifierType.Medical ∧
      (classify "4111-1111-1111-1111 123-45-6789".toList).2.exceeds 80 = true ∧
      ssnCountOf "4111-1111-1111-1111 123-45-6789".toList = 1 ∧
      riskAccumOf "4111-1111-1111-1111 123-45-6789".toList = 10 ∧
      preClampScore "f.txt".toList "4111-1111-1111-1111 123-45-6789".toList = 310 ∧
      preClampScore "f.txt".toList "4111-1111-1111-1111 123-45-6789".toList ≠
        riskAccumOf "4111-1111-1111-1111 123-45-6789".toList +
          ssnCountOf "4111-1111-1111-1111 123-45-6789".toList * 10 + 300 := by
  decide

/-- With no tokens, the financial score (which has no PHI component) is 0. -/
theorem finScore2_nil (text : List Char) (h : normalizeTokens text = []) :
    finScore2 text = 0 := by
  simp only [finScore2, h]
  rfl

/-- `Classify` returns Medical exactly when there are tokens and the medical
score strictly exceeds the financial score. -/
theorem classify_medical_iff (text : List Char) :
    (classify text).1 = ClassifierType.Medical ↔
      normalizeTokens text ≠ [] ∧ finScore2 text < medScore2 text := by
  by_cases h1 : normalizeTokens text = []
  · simp [classify, h1]
  · by_cases h2 : medScore2 text + finScore2 text = 0
    · simp [classify, h1, h2]
      omega
    · by_cases h3 : finScore2 text < medScore2 text
      · simp [classify, h1, h2, h3]
      · simp [classify, h1, h2, h3]

/-- C6: when the Medical and Financial raw scores are equal and nonzero,
`Classify` returns Financial; Medical is returned only when its score is
strictly greater than the Financial score. -/
theorem classify_tie_financial (text : List Char) :
    ((medScoreQ text = finScoreQ text ∧ medScoreQ text ≠ 0) →
      (classify text).1 = ClassifierType.Financial) ∧
    ((classify text).1 = ClassifierType.Medical →
      finScoreQ text < medScoreQ text) := by
  constructor
  · rintro ⟨heq, hne⟩
    have h2 : medScore2 text = finScore2 text := by
      unfold medScoreQ finScoreQ at heq
      field_simp at heq
      exact_mod_cast heq
    have hne2 : medScore2 text ≠ 0 := by
      intro h0
      apply hne
      unfold medScoreQ
      rw [h0]
      norm_num
    have htok : normalizeTokens text ≠ [] := by
      intro h
      exact hne2 (by rw [h2, finScore2_nil text h])
    have htot : ¬(medScore2 text + finScore2 text = 0) := by omega
    have hlt : ¬(finScore2 text < medScore2 text) := by omega
    simp [classify, htok, htot, hlt]
  · intro hmed
    rw [classify_medical_iff] at hmed
    unfold medScoreQ finScoreQ
    rw [div_lt_div_iff_of_pos_right (by norm_num : (0:ℚ) < 2)]
    exact_mod_cast hmed.2

/-- C6 witness: `patient invoice` scores 3.0 for each category (tie) and is
classified Financial. -/
theorem classify_tie_financial_witness :
    (medScoreQ "patient invoice".toList = finScoreQ "patient invoice".toList ∧
        medScoreQ "patient invoice".toList ≠ 0) ∧
      (classify "patient invoice".toList).1 = ClassifierType.Financial := by
  have hm : medScore2 "patient invoice".toList = 6 := by decide
  have hf : finScore2 "patient invoice".toList = 6 := by decide
  have h1 : medScoreQ "patient invoice".toList = finScoreQ "patient invoice".toList := by
    unfold medScoreQ finScoreQ
    rw [hm, hf]
  have h2 : medScoreQ "patient invoice".toList ≠ 0 := by
    unfold medScoreQ
    rw [hm]
    norm_num
  exact ⟨⟨h1, h2⟩, (classify_tie_financial "patient invoice".toList).1 ⟨h1, h2⟩⟩


/-- The linear confidence `(win/total)*100` lies in `[50,100]` when the
winning score is positive, at most the total, and at least half of it. -/
theorem confidence_linear_val_bounds (win2 total2 : Nat) (hw : 0 < win2)
    (hle : win2 ≤ total2) (hhalf : total2 ≤ 2 * win2) :
    50 ≤ (Confidence.linear win2 total2).val ∧
      (Confidence.linear win2 total2).val ≤ 100 := by
  have htot : (0:ℝ) < (total2 : ℝ) := by
    have : 0 < total2 := lt_of_lt_of_le hw hle
    exact_mod_cast this
  have hcast : (win2 : ℝ) ≤ (total2 : ℝ) := by exact_mod_cast hle
  have hhalf' : (total2 : ℝ) ≤ 2 * (win2 : ℝ) := by exact_mod_cast hhalf
  simp only [Confidence.val]
  have htot' : (total2 : ℝ) ≠ 0 := ne_of_gt htot
  have hc : (win2 : ℝ) / 2 / ((total2 : ℝ) / 2) * 100 = (win2 : ℝ) / (total2 : ℝ) * 100 := by
    field_simp
  rw [hc]
  have h50 : (50:ℝ) ≤ (win2 : ℝ) / (total2 : ℝ) * 100 := by
    rw [div_mul_eq_mul_div, le_div_iff₀ htot]
    nlinarith
  have h100 : (win2 : ℝ) / (total2 : ℝ) * 100 ≤ 100 := by
    have hdiv : (win2 : ℝ) / (total2 : ℝ) ≤ 1 := (div_le_one htot).mpr hcast
    nlinarith
  split_ifs with h
  · exact ⟨by norm_num, le_refl _⟩
  · exact ⟨h50, h100⟩

/-- The logarithmic-override confidence lies in `[90,100]` whenever the
winning score exceeds 10 (the only case in which `Classify` uses it). -/
theorem confidence_log_val_bounds (win2 : Nat) (h : 20 < win2) :
    90 ≤ (Confidence.logOverride win2).val ∧ (Confidence.logOverride win2).val ≤ 100 := by
  simp only [Confidence.val]
  have h1 : (1:ℝ) ≤ (win2 : ℝ) / 2 / 10 := by
    rw [div_div, le_div_iff₀ (by norm_num : (0:ℝ) < 2 * 10)]
    have : (20:ℝ) < (win2 : ℝ) := by exact_mod_cast h
    linarith
  have hlog : 0 ≤ Real.logb 10 ((win2 : ℝ) / 2 / 10) :=
    Real.logb_nonneg (by norm_num) h1
  split_ifs with hcl
  · exact ⟨by norm_num, le_refl _⟩
  · constructor
    · linarith
    · linarith [not_lt.mp hcl]

/-- C10: `Classify` returns confidence 0 exactly for Generic, and for
Medical or Financial its confidence lies between 50 and 100 inclusive. -/
theorem classify_confidence (text : List Char) :
    (((classify text).2.val = 0) ↔ (classify text).1 = ClassifierType.Generic) ∧
    ((classify text).1 ≠ ClassifierType.Generic →
      50 ≤ (classify text).2.val ∧ (classify text).2.val ≤ 100) := by
  by_cases h1 : normalizeTokens text = []
  · simp [classify, h1, Confidence.val]
  · by_cases h2 : medScore2 text + finScore2 text = 0
    · simp [classify, h1, h2, Confidence.val]
    · have hbounds : 50 ≤ (classify text).2.val ∧ (classify text).2.val ≤ 100 := by
        by_cases h3 : finScore2 text < medScore2 text
        · by_cases h4 : 20 < medScore2 text
          · have hconf : (classify text).2 = .logOverride (medScore2 text) := by
              simp [classify, h1, h2, h3, h4]
            rw [hconf]
            have hb := confidence_log_val_bounds (medScore2 text) h4
            exact ⟨by linarith [hb.1], hb.2⟩
          · have hconf : (classify text).2 =
                .linear (medScore2 text) (medScore2 text + finScore2 text) := by
              simp [classify, h1, h2, h3, h4]
            rw [hconf]
            exact confidence_linear_val_bounds _ _ (by omega) (by omega) (by omega)
        · by_cases h4 : 20 < finScore2 text
          · have hconf : (classify text).2 = .logOverride (finScore2 text) := by
              simp [classify, h1, h2, h3, h4]
            rw [hconf]
            have hb := confidence_log_val_bounds (finScore2 text) h4
            exact ⟨by linarith [hb.1], hb.2⟩
          · have hconf : (classify text).2 =
                .linear (finScore2 text) (medScore2 text + finScore2 text) := by
              simp [classify, h1, h2, h3, h4]
            rw [hconf]
            exact confidence_linear_val_bounds _ _ (by omega) (by omega) (by omega)
      have hcat : (classify text).1 ≠ ClassifierType.Generic := by
        by_cases h3 : finScore2 text < medScore2 text
        · simp [classify, h1, h2, h3]
        · simp [classify, h1, h2, h3]
      refine ⟨⟨fun h0 => absurd h0 (by linarith [hbounds.1]), fun hg => absurd hg hcat⟩,
        fun _ => hbounds⟩

/-- C10 witness: `invoice` is non-Generic with confidence in `[50,100]`. -/
theorem classify_confidence_witness :
    (classify "invoice".toList).1 ≠ ClassifierType.Generic ∧
      50 ≤ (classify "invoice".toList).2.val ∧
      (classify "invoice".toList).2.val ≤ 100 :=
  ⟨by decide, (classify_confidence "invoice".toList).2 (by decide)⟩

/-- C8: starting a scan over a non-empty path list with a context that is
cancelled from the very start (before any file is analyzed) emits the
scan-cancelled notification and records no audit entry. -/
theorem cancel_before_analysis_no_audit (roots : List (String × List WalkEntry))
    (cancelled : Nat → Bool) (hne : roots ≠ []) (hc : cancelled 0 = true) :
    ScanEvent.scanCancelled ∈ executeScan roots cancelled ∧
      ∀ st, ScanEvent.auditRecorded st ∉ executeScan roots cancelled := by
  obtain ⟨r, rest, rfl⟩ : ∃ r rest, roots = r :: rest := by
    cases roots with
    | nil => exact absurd rfl hne
    | cons r rest => exact ⟨r, rest, rfl⟩
  have hrun : executeScan (r :: rest) cancelled =
      [ScanEvent.logInfo (r :: rest).length, ScanEvent.scanCancelled] := by
    simp [executeScan, phase1, hc]
  rw [hrun]
  refine ⟨by simp, fun st => by simp⟩

/-- C8 witness: a one-root scan cancelled from the start notifies the
cancellation and records no audit entry (of either status). -/
theorem cancel_before_analysis_no_audit_witness :
    ScanEvent.scanCancelled ∈
        executeScan [("root", [⟨"root/x.txt", false, some "hi"⟩])] (fun _ => true) ∧
      ScanEvent.auditRecorded "PASSED" ∉
        executeScan [("root", [⟨"root/x.txt", false, some "hi"⟩])] (fun _ => true) ∧
      ScanEvent.auditRecorded "FAILED" ∉
        executeScan [("root", [⟨"root/x.txt", false, some "hi"⟩])] (fun _ => true) :=
  have h := cancel_before_analysis_no_audit
    [("root", [⟨"root/x.txt", false, some "hi"⟩])] (fun _ => true) (by simp) rfl
  ⟨h.1, h.2 "PASSED", h.2 "FAILED"⟩

/-- No placeholder token produced by redaction is itself matched by any of
the twelve redaction patterns: the supporting clause of the idempotence
claim, checked for all 144 pattern/placeholder pairs. -/
theorem redaction_placeholders_inert :
    ∀ p ∈ redactionSteps, ∀ q ∈ redactionSteps,
      rxMatches p.1 q.2.toList = false := by
  decide

/-- On every confidence `classify` yields, `exceeds q` agrees with the real
comparison `q < confidence` for the engine's thresholds (`q < 90`). -/
theorem classify_exceeds_iff (text : List Char) (q : Nat) (hq : q < 90) :
    ((classify text).2.exceeds q = true ↔ (q : ℝ) < (classify text).2.val) := by
  have hq' : (q : ℝ) < 90 := by exact_mod_cast hq
  have hlin : ∀ win2 total2 : Nat, 0 < total2 → win2 ≤ total2 →
      ((Confidence.linear win2 total2).exceeds q = true ↔
        (q : ℝ) < (Confidence.linear win2 total2).val) := by
    intro win2 total2 htot hle
    have htotR : (0:ℝ) < (total2 : ℝ) := by exact_mod_cast htot
    have hleR : (win2 : ℝ) ≤ (total2 : ℝ) := by exact_mod_cast hle
    simp only [Confidence.exceeds, Confidence.val, decide_eq_true_eq]
    have hc : (win2 : ℝ) / 2 / ((total2 : ℝ) / 2) * 100 =
        (win2 : ℝ) / (total2 : ℝ) * 100 := by
      field_simp
    rw [hc]
    have hle100 : (win2 : ℝ) / (total2 : ℝ) * 100 ≤ 100 := by
      have : (win2 : ℝ) / (total2 : ℝ) ≤ 1 := (div_le_one htotR).mpr hleR
      nlinarith
    rw [if_neg (not_lt.mpr hle100)]
    rw [div_mul_eq_mul_div, lt_div_iff₀ htotR]
    rw [show (win2 : ℝ) * 100 = ((win2 * 100 : Nat) : ℝ) by push_cast; ring,
        show (q : ℝ) * (total2 : ℝ) = ((q * total2 : Nat) : ℝ) by push_cast; ring,
        Nat.cast_lt]
    omega
  by_cases h1 : normalizeTokens text = []
  · have : (classify text).2 = .generic := by simp [classify, h1]
    rw [this]
    simp only [Confidence.exceeds, Confidence.val]
    constructor
    · intro h; cases h
    · intro h; exact absurd h (not_lt.mpr (by positivity))
  · by_cases h2 : medScore2 text + finScore2 text = 0
    · have : (classify text).2 = .generic := by simp [classify, h1, h2]
      rw [this]
      simp only [Confidence.exceeds, Confidence.val]
      constructor
      · intro h; cases h
      · intro h; exact absurd h (not_lt.mpr (by positivity))
    · by_cases h3 : finScore2 text < medScore2 text
      · by_cases h4 : 20 < medScore2 text
        · have hcf : (classify text).2 = .logOverride (medScore2 text) := by
            simp [classify, h1, h2, h3, h4]
          rw [hcf]
          have hb := confidence_log_val_bounds (medScore2 text) h4
          simp only [Confidence.exceeds]
          exact ⟨fun _ => lt_of_lt_of_le hq' hb.1, fun _ => trivial⟩
        · have hcf : (classify text).2 =
              .linear (medScore2 text) (medScore2 text + finScore2 text) := by
            simp [classify, h1, h2, h3, h4]
          rw [hcf]
          exact hlin _ _ (by omega) (by omega)
      · by_cases h4 : 20 < finScore2 text
        · have hcf : (classify text).2 = .logOverride (finScore2 text) := by
            simp [classify, h1, h2, h3, h4]
          rw [hcf]
          have hb := confidence_log_val_bounds (finScore2 text) h4
          simp only [Confidence.exceeds]
          exact ⟨fun _ => lt_of_lt_of_le hq' hb.1, fun _ => trivial⟩
        · have hcf : (classify text).2 =
              .linear (finScore2 text) (medScore2 text + finScore2 text) := by
            simp [classify, h1, h2, h3, h4]
          rw [hcf]
          exact hlin _ _ (by omega) (by omega)

end Guardian
